import Mathlib

/-!
Shallow embedding of the LTE PDCP entity of `src/lib/src/upper/pdcp_entity_lte.cc`
(namespace `srslte`, class `pdcp_entity_lte`).

Byte buffers are lists of `Nat` (each element a byte value); `std::map` over
`uint32_t` keys is a strictly-sorted association list.  Machine `uint32_t`
arithmetic is made explicit with `u32`; the `int32_t` casts of the DRB/AM
receive path are made explicit with `toInt32`.  The crypto provider, an
external collaborator, is a record of pure functions passed to each operation.
Helper functions of the wider repository that are not part of the given
source (`COUNT`, header read/write, `uint8_to_uint16`/`uint8_to_uint24`,
`is_control_pdu`) are modelled from the spec and marked as such.
-/

namespace PdcpLte

/-- A byte buffer: the `msg`/`N_bytes` region of a `byte_buffer_t`. -/
abbrev Buf := List Nat

/-- `uint32_t` truncation. -/
def u32 (n : Nat) : Nat := n % 4294967296

/-- `static_cast<int32_t>` of a `uint32_t` value. -/
def toInt32 (n : Nat) : Int :=
  if u32 n < 2147483648 then (u32 n : Int) else (u32 n : Int) - 4294967296

/-- `(int32_t)(a - b)` where `a`, `b` are `uint32_t`: wraparound subtraction
then reinterpretation as signed. -/
def i32sub (a b : Nat) : Int := toInt32 (u32 a + 4294967296 - u32 b)

/-- `srslte_direction_t`. -/
inductive Direction where
  | dNONE | dTX | dRX | dTXRX
deriving DecidableEq, Repr

/-- Entity configuration (`pdcp_config_t` plus the fixed answer of the
external `rlc->rb_is_um(lcid)` query, constant per bearer). -/
structure PdcpCfg where
  is_srb : Bool                 -- `rb_type == PDCP_RB_IS_SRB`; `is_drb()` is its negation
  rb_is_um : Bool               -- what `rlc->rb_is_um(lcid)` returns for this bearer
  sn_len : Nat                  -- 5, 7, 12 or 18
  hdr_len_bytes : Nat           -- 1, 2 or 3
  discard_timer_finite : Bool   -- `cfg.discard_timer != pdcp_discard_timer_t::infinity`
  status_report_required : Bool
deriving DecidableEq, Repr

/-- `maximum_pdcp_sn = (1 << cfg.sn_len) - 1`. -/
def maximum_pdcp_sn (cfg : PdcpCfg) : Nat := (1 <<< cfg.sn_len) - 1

/-- The five counters of `pdcp_lte_state_t`. -/
structure PdcpState where
  next_pdcp_tx_sn : Nat
  tx_hfn : Nat
  rx_hfn : Nat
  next_pdcp_rx_sn : Nat
  last_submitted_pdcp_rx_sn : Nat
deriving DecidableEq, Repr

/-- The mutable entity: state block, the two keyed maps and security flags.
`discard_timers_map` keeps only the key set (the timer objects carry no
information the claims need beyond their keys). -/
structure Entity where
  cfg : PdcpCfg
  st : PdcpState
  undelivered_sdus_queue : List (Nat × Buf)
  discard_timers_map : List Nat
  integrity_direction : Direction
  encryption_direction : Direction
  enable_security_tx_sn : Option Nat  -- `-1` becomes `none`
  enable_security_rx_sn : Option Nat
  active : Bool
deriving DecidableEq, Repr

/-- `reordering_window`: 0 for SRB, 2048 for DRB (constructor). -/
def reordering_window (cfg : PdcpCfg) : Nat := if cfg.is_srb then 0 else 2048

/-- Modelled from the spec: the `COUNT` macro of the base class,
`(HFN << sn_len) | SN` in 32-bit arithmetic (spec §3 invariant 3). -/
def COUNT (sn_len hfn sn : Nat) : Nat := u32 ((hfn <<< sn_len) ||| sn)

/-! ### Ordered-map helpers (`std::map<uint32_t, ...>`) -/

/-- `map.find(k) != map.end()`. -/
def mapContains (q : List (Nat × Buf)) (k : Nat) : Bool := q.any (fun p => p.1 == k)

/-- `std::map::insert` on a strictly-sorted association list: keeps the
existing entry when the key is already present. -/
def mapInsert (k : Nat) (v : Buf) : List (Nat × Buf) → List (Nat × Buf)
  | [] => [(k, v)]
  | (k', v') :: t =>
    if k < k' then (k, v) :: (k', v') :: t
    else if k = k' then (k', v') :: t
    else (k', v') :: mapInsert k v t

/-- `std::map::erase(key)`. -/
def mapErase (k : Nat) (q : List (Nat × Buf)) : List (Nat × Buf) :=
  q.filter (fun p => p.1 ≠ k)

/-- Key set, in ascending order. -/
def mapKeys (q : List (Nat × Buf)) : List Nat := q.map (fun p => p.1)

/-- `std::map<uint32_t, unique_timer>::insert`: duplicate key is a no-op. -/
def keyInsert (k : Nat) : List Nat → List Nat
  | [] => [k]
  | k' :: t =>
    if k < k' then k :: k' :: t
    else if k = k' then k' :: t
    else k' :: keyInsert k t

/-- `std::map<uint32_t, unique_timer>::erase(key)`. -/
def keyErase (k : Nat) (t : List Nat) : List Nat := t.filter (fun k' => k' ≠ k)

/-! ### Framing helpers (base class, modelled from the spec) -/

/-- Modelled from the spec: `read_data_header` of the base class, per the
§4.1 header-layout table (SN right-aligned in the header bits). -/
def read_data_header (sn_len : Nat) (pdu : Buf) : Nat :=
  match sn_len with
  | 5 => pdu.getD 0 0 &&& 0x1F
  | 7 => pdu.getD 0 0 &&& 0x7F
  | 12 => ((pdu.getD 0 0 &&& 0x0F) <<< 8) ||| pdu.getD 1 0
  | 18 => ((pdu.getD 0 0 &&& 0x03) <<< 16) ||| (pdu.getD 1 0 <<< 8) ||| pdu.getD 2 0
  | _ => 0

/-- Modelled from the spec: `discard_data_header` drops the
`hdr_len_bytes` header. -/
def discard_data_header (hdr_len_bytes : Nat) (pdu : Buf) : Buf :=
  pdu.drop hdr_len_bytes

/-- Modelled from the spec: `write_data_header` prepends the §4.1 header
carrying the low `sn_len` bits of COUNT; data/control bit is 1 for DRB data
PDUs and 0 for SRBs (§4.1 table). -/
def write_data_header (cfg : PdcpCfg) (count : Nat) (sdu : Buf) : Buf :=
  let sn := count % (1 <<< cfg.sn_len)
  let dc : Nat := if cfg.is_srb then 0 else 1
  match cfg.sn_len with
  | 5 => sn :: sdu
  | 7 => ((dc <<< 7) ||| sn) :: sdu
  | 12 => ((dc <<< 7) ||| (sn >>> 8)) :: (sn &&& 0xFF) :: sdu
  | 18 => ((dc <<< 7) ||| (sn >>> 16)) :: ((sn >>> 8) &&& 0xFF) :: (sn &&& 0xFF) :: sdu
  | _ => sdu

/-- Modelled from the spec: `is_control_pdu` — the data/control bit (bit 7 of
byte 0) clear to 0 marks a control PDU (§4.1). -/
def is_control_pdu (pdu : Buf) : Bool := (pdu.getD 0 0) >>> 7 == 0

/-- Modelled from the spec: `get_control_pdu_type` — the 3-bit subtype field
below the data/control bit; subtype 0 is `PDCP_PDU_TYPE_STATUS_REPORT`. -/
def get_control_pdu_type (pdu : Buf) : Nat := ((pdu.getD 0 0) >>> 4) &&& 0x7

/-- Modelled from the spec: `extract_mac` splits off the trailing 4-byte
MAC-I, shrinking the PDU. -/
def extract_mac (pdu : Buf) : Buf × Buf :=
  (pdu.take (pdu.length - 4), pdu.drop (pdu.length - 4))

/-- Modelled from the spec: `enable_integrity(DIRECTION_TX)` /
`enable_encryption(DIRECTION_TX)` of the base class flip the direction "to
include TX" (§4.2 step 5). -/
def include_tx : Direction → Direction
  | Direction.dNONE => Direction.dTX
  | Direction.dTX => Direction.dTX
  | Direction.dRX => Direction.dTXRX
  | Direction.dTXRX => Direction.dTXRX

/-- Modelled from the spec: `enable_integrity(DIRECTION_RX)` /
`enable_encryption(DIRECTION_RX)` flip the direction to include RX
(§4.4: "Activate pending RX security at the matched SN"). -/
def include_rx : Direction → Direction
  | Direction.dNONE => Direction.dRX
  | Direction.dRX => Direction.dRX
  | Direction.dTX => Direction.dTXRX
  | Direction.dTXRX => Direction.dTXRX

/-- The external crypto provider (§6): pure functions over
(bytes, COUNT). -/
structure Crypto where
  encrypt : Buf → Nat → Buf
  decrypt : Buf → Nat → Buf
  verify : Buf → Nat → Buf → Bool      -- integrity_verify(bytes, count, mac)
  mac : Buf → Nat → Buf                -- integrity_generate(bytes, count) → 4 bytes

/-- A crypto provider that ciphers nothing and accepts every MAC. -/
def idCrypto : Crypto :=
  ⟨fun b _ => b, fun b _ => b, fun _ _ _ => true, fun _ _ => [0, 0, 0, 0]⟩

/-! ### Status reporter (source lines 403–531) -/

/-- Set bit `7 - bit_offset` of the bitmap byte at `byte_offset`
(`pdu->msg[pdu->N_bytes + byte_offset] |= 1 << (7 - bit_offset)`). -/
def setBitmapBit (bmp : List Nat) (byte_offset bit_offset : Nat) : List Nat :=
  bmp.set byte_offset ((bmp.getD byte_offset 0) ||| (1 <<< (7 - bit_offset)))

/-- The bitmap loop of `send_status_report` (lines 460–465): for every key of
the undelivered queue, set the bit at `offset = key - fms` (uint32). -/
def statusBitmap (fms : Nat) (keys : List Nat) (sz : Nat) : List Nat :=
  keys.foldl
    (fun bmp k =>
      let offset := u32 (k + 4294967296 - fms)
      setBitmapBit bmp (offset / 8) (offset % 8))
    (List.replicate sz 0)

/-- `pdcp_entity_lte::send_status_report` (lines 403–473).  Returns the PDU
handed to `rlc->write_sdu`, or `none` when the function bails out (RLC is UM,
or an SN length it does not support).  Buffer allocation is modelled as
always succeeding. -/
def send_status_report (e : Entity) : Option Buf :=
  if e.cfg.rb_is_um then none
  else
    -- FMS: next_pdcp_tx_sn when the queue is empty, else its first key
    let fms := match e.undelivered_sdus_queue with
               | [] => e.st.next_pdcp_tx_sn
               | (k, _) :: _ => k
    -- byte 0 = control(0) << 7 | STATUS_REPORT(0) << 4 = 0, then FMS bits
    let b0 : Nat := ((0 : Nat) <<< 7) ||| ((0 : Nat) <<< 4)
    let hdr : Option Buf :=
      match e.cfg.sn_len with
      | 12 => some [b0 ||| (0x0F &&& (fms >>> 8)), 0xFF &&& fms]
      | 18 => some [b0 ||| (0x03 &&& (fms >>> 16)), 0xFF &&& (fms >>> 8), 0xFF &&& fms]
      | _ => none
    match hdr with
    | none => none
    | some h =>
      match e.undelivered_sdus_queue with
      | [] => some h
      | q =>
        -- bitmap_sz = ceil((float)(last_sn - (fms - 1)) / 8), uint32 operands
        let last_sn := (q.getLastD (0, [])).1
        let diff := u32 (last_sn + 4294967296 - u32 (fms + 4294967296 - 1))
        let bitmap_sz := (diff + 7) / 8
        some (h ++ statusBitmap fms (mapKeys q) bitmap_sz)

/-- FMS decoding of `handle_status_report_pdu` (lines 484–502): big-endian
packing of the first header bytes (`uint8_to_uint16` / `uint8_to_uint24`,
modelled from the spec), then the SN-length-specific mask exactly as the
source writes it.  Returns `(fms, bitmap_offset)`. -/
def decode_fms (sn_len : Nat) (pdu : Buf) : Option (Nat × Nat) :=
  match sn_len with
  | 12 => some ((((pdu.getD 0 0) <<< 8) ||| pdu.getD 1 0) &&& 0x0FFF, 2)
  | 18 => some (((((pdu.getD 0 0) <<< 16) ||| ((pdu.getD 1 0) <<< 8)) ||| pdu.getD 2 0) &&& 0x3FFF, 3)
  | _ => none

/-- The bitmap walk of `handle_status_report_pdu` (lines 515–523): for each
bitmap byte `i` and `j = 0..7`, the source tests `bset[8 - j]` of the 8-bit
bitset — for `j = 0` that reads the always-zero bit 8 of the byte's
underlying word — and records `fms + i*8 + j` as acknowledged. -/
def collectAcked (fms bitmap_offset : Nat) (pdu : Buf) : List Nat :=
  (List.range (pdu.length - bitmap_offset)).foldl
    (fun acc i =>
      let byte := pdu.getD (bitmap_offset + i) 0
      acc ++ (List.range 8).filterMap
        (fun j => if byte.testBit (8 - j) then some (fms + i * 8 + j) else none))
    []

/-- `pdcp_entity_lte::handle_status_report_pdu` (lines 476–531): decode FMS,
erase queue entries (and their discard timers) below FMS, then erase every
SN acknowledged by the bitmap from both maps. -/
def handle_status_report_pdu (e : Entity) (pdu : Buf) : Entity :=
  match decode_fms e.cfg.sn_len pdu with
  | none => e
  | some (fms, bitmap_offset) =>
    -- lines 505–512: the timer erase happens only for keys removed from the queue
    let below := (mapKeys e.undelivered_sdus_queue).filter (fun k => k < fms)
    let tmrs := below.foldl (fun t k => keyErase k t) e.discard_timers_map
    let und := e.undelivered_sdus_queue.filter (fun p => ¬ p.1 < fms)
    let acked := collectAcked fms bitmap_offset pdu
    let und := acked.foldl (fun q sn => mapErase sn q) und
    let tmrs := acked.foldl (fun t sn => keyErase sn t) tmrs
    { e with undelivered_sdus_queue := und, discard_timers_map := tmrs }

/-! ### TX path (source lines 107–190, 535–553) -/

/-- `pdcp_entity_lte::store_sdu` (lines 535–553): reject a duplicate
`tx_count` key, else insert a deep copy.  Returns the updated queue and the
boolean result.  Note the caller passes `used_sn`, not the derived COUNT. -/
def store_sdu (q : List (Nat × Buf)) (tx_count : Nat) (sdu : Buf) :
    List (Nat × Buf) × Bool :=
  if mapContains q tx_count then (q, false) else (mapInsert tx_count sdu q, true)

/-- `pdcp_entity_lte::write_sdu` (lines 107–190).  `upper_sn = none` models
the `-1` sentinel; `queue_full` is the answer of the external
`rlc->sdu_queue_is_full(lcid)` query.  Returns the updated entity and the
PDU handed to `rlc->write_sdu` (none when dropped). -/
def write_sdu (c : Crypto) (e : Entity) (sdu : Buf) (upper_sn : Option Nat)
    (queue_full : Bool) : Entity × Option Buf :=
  if queue_full then (e, none)
  else
    let used_sn := upper_sn.getD e.st.next_pdcp_tx_sn
    let tx_count := COUNT e.cfg.sn_len e.st.tx_hfn used_sn
    -- DRB on RLC AM: store a copy (the source calls store_sdu with used_sn)
    let und := if ¬ e.cfg.is_srb ∧ ¬ e.cfg.rb_is_um then
                 (store_sdu e.undelivered_sdus_queue used_sn sdu).1
               else e.undelivered_sdus_queue
    -- pending TX security activation keyed to tx_count; the activated
    -- directions govern the MAC and ciphering decisions below
    let activate := e.enable_security_tx_sn = some tx_count
    let idir := if activate then include_tx e.integrity_direction
                else e.integrity_direction
    let edir := if activate then include_tx e.encryption_direction
                else e.encryption_direction
    let etx := if activate then none else e.enable_security_tx_sn
    let pdu := write_data_header e.cfg tx_count sdu
    -- arm discard timer keyed by tx_count
    let tmrs := if e.cfg.discard_timer_finite then
                  keyInsert tx_count e.discard_timers_map
                else e.discard_timers_map
    let do_integrity := idir = Direction.dTX ∨ idir = Direction.dTXRX
    let mac := if do_integrity ∧ e.cfg.is_srb then c.mac pdu tx_count else [0, 0, 0, 0]
    let pdu := if e.cfg.is_srb then pdu ++ mac else pdu
    let pdu := if edir = Direction.dTX ∨ edir = Direction.dTXRX then
                 pdu.take e.cfg.hdr_len_bytes ++
                   c.encrypt (pdu.drop e.cfg.hdr_len_bytes) tx_count
               else pdu
    -- increment NEXT_PDCP_TX_SN / TX_HFN (uint32_t) only without an
    -- upper-layer SN
    let st := if upper_sn = none then
                let n := e.st.next_pdcp_tx_sn + 1
                if n > maximum_pdcp_sn e.cfg then
                  { e.st with next_pdcp_tx_sn := 0, tx_hfn := u32 (e.st.tx_hfn + 1) }
                else { e.st with next_pdcp_tx_sn := n }
              else e.st
    ({ e with st := st, undelivered_sdus_queue := und, discard_timers_map := tmrs,
              integrity_direction := idir, encryption_direction := edir,
              enable_security_tx_sn := etx }, some pdu)

/-! ### RX path (source lines 193–395) -/

/-- Result of a receive operation: the entity, the buffer delivered upward
(RRC or gateway; `none` when dropped) and whether `cipher_decrypt` was
invoked on the buffer. -/
structure RxResult where
  ent : Entity
  delivered : Option Buf
  decrypted : Bool
deriving Repr

/-- `pdcp_entity_lte::handle_srb_pdu` (lines 257–307). -/
def handle_srb_pdu (c : Crypto) (e : Entity) (pdu : Buf) : RxResult :=
  let sn := read_data_header e.cfg.sn_len pdu
  let count := if sn < e.st.next_pdcp_rx_sn then COUNT e.cfg.sn_len (e.st.rx_hfn + 1) sn
               else COUNT e.cfg.sn_len e.st.rx_hfn sn
  let dec := e.encryption_direction = Direction.dRX ∨
             e.encryption_direction = Direction.dTXRX
  let pdu := if dec then
               pdu.take e.cfg.hdr_len_bytes ++
                 c.decrypt (pdu.drop e.cfg.hdr_len_bytes) count
             else pdu
  let (body, mac) := extract_mac pdu
  if (e.integrity_direction = Direction.dRX ∨
      e.integrity_direction = Direction.dTXRX) ∧ ¬ c.verify body count mac then
    ⟨e, none, dec⟩  -- drop: state untouched, nothing delivered
  else
    let payload := discard_data_header e.cfg.hdr_len_bytes body
    let rx_hfn := if sn < e.st.next_pdcp_rx_sn then e.st.rx_hfn + 1 else e.st.rx_hfn
    let n := sn + 1
    let st := if n > maximum_pdcp_sn e.cfg then
                { e.st with next_pdcp_rx_sn := 0, rx_hfn := rx_hfn + 1 }
              else
                { e.st with next_pdcp_rx_sn := n, rx_hfn := rx_hfn }
    ⟨{ e with st := st }, some payload, dec⟩

/-- `pdcp_entity_lte::handle_um_drb_pdu` (lines 310–334). -/
def handle_um_drb_pdu (c : Crypto) (e : Entity) (pdu : Buf) : RxResult :=
  let sn := read_data_header e.cfg.sn_len pdu
  let body := discard_data_header e.cfg.hdr_len_bytes pdu
  let rx_hfn := if sn < e.st.next_pdcp_rx_sn then e.st.rx_hfn + 1 else e.st.rx_hfn
  let count := COUNT e.cfg.sn_len rx_hfn sn
  let dec := e.encryption_direction = Direction.dRX ∨
             e.encryption_direction = Direction.dTXRX
  let body := if dec then c.decrypt body count else body
  let n := sn + 1
  let st := if n > maximum_pdcp_sn e.cfg then
              { e.st with next_pdcp_rx_sn := 0, rx_hfn := rx_hfn + 1 }
            else
              { e.st with next_pdcp_rx_sn := n, rx_hfn := rx_hfn }
  ⟨{ e with st := st }, some body, dec⟩

/-- `pdcp_entity_lte::handle_am_drb_pdu` (lines 337–395): the decision table
over `int32_t` differences; `cipher_decrypt` is called unconditionally on
every deliver branch. -/
def handle_am_drb_pdu (c : Crypto) (e : Entity) (pdu : Buf) : RxResult :=
  let sn := read_data_header e.cfg.sn_len pdu
  let body := discard_data_header e.cfg.hdr_len_bytes pdu
  let w : Int := reordering_window e.cfg
  let last_submit_diff_sn := i32sub e.st.last_submitted_pdcp_rx_sn sn
  let sn_diff_last_submit := i32sub sn e.st.last_submitted_pdcp_rx_sn
  let sn_diff_next_pdcp_rx_sn := i32sub sn e.st.next_pdcp_rx_sn
  if (0 ≤ sn_diff_last_submit ∧ sn_diff_last_submit > w) ∨
     (0 ≤ last_submit_diff_sn ∧ last_submit_diff_sn < w) then
    ⟨e, none, false⟩  -- discard, no decrypt
  else
    let (count, st) :=
      if i32sub e.st.next_pdcp_rx_sn sn > w then
        -- rx_hfn++ first, then COUNT with the new HFN; next_rx := sn+1, no wrap check
        (COUNT e.cfg.sn_len (e.st.rx_hfn + 1) sn,
         { e.st with rx_hfn := e.st.rx_hfn + 1, next_pdcp_rx_sn := sn + 1 })
      else if sn_diff_next_pdcp_rx_sn ≥ w then
        -- (rx_hfn - 1) in uint32 arithmetic; state unchanged
        (COUNT e.cfg.sn_len (u32 (e.st.rx_hfn + 4294967296 - 1)) sn, e.st)
      else if sn ≥ e.st.next_pdcp_rx_sn then
        let n := sn + 1
        (COUNT e.cfg.sn_len e.st.rx_hfn sn,
         if n > maximum_pdcp_sn e.cfg then
           { e.st with next_pdcp_rx_sn := 0, rx_hfn := e.st.rx_hfn + 1 }
         else { e.st with next_pdcp_rx_sn := n })
      else
        (COUNT e.cfg.sn_len e.st.rx_hfn sn, e.st)
    let body := c.decrypt body count
    let st := { st with last_submitted_pdcp_rx_sn := sn }
    ⟨{ e with st := st }, some body, true⟩

/-- `pdcp_entity_lte::handle_control_pdu` (lines 239–250): only the
status-report subtype is handled. -/
def handle_control_pdu (e : Entity) (pdu : Buf) : Entity :=
  if get_control_pdu_type pdu = 0 then handle_status_report_pdu e pdu else e

/-- `pdcp_entity_lte::write_pdu` (lines 193–236): control dispatch for DRBs
happens before the minimum-length sanity check; then RX security activation
keyed to the raw SN, then the per-variant handler. -/
def write_pdu (c : Crypto) (e : Entity) (pdu : Buf) : RxResult :=
  if ¬ e.cfg.is_srb ∧ is_control_pdu pdu then
    ⟨handle_control_pdu e pdu, none, false⟩
  else if pdu.length ≤ e.cfg.hdr_len_bytes then
    ⟨e, none, false⟩  -- "PDCP PDU smaller than required header size"
  else
    let sn := read_data_header e.cfg.sn_len pdu
    let e := if e.enable_security_rx_sn = some sn then
               { e with integrity_direction := include_rx e.integrity_direction,
                        encryption_direction := include_rx e.encryption_direction,
                        enable_security_rx_sn := none }
             else e
    if e.cfg.is_srb then handle_srb_pdu c e pdu
    else if e.cfg.rb_is_um then handle_um_drb_pdu c e pdu
    else handle_am_drb_pdu c e pdu

/-! ### Discard callback, delivery notification, lifecycle -/

/-- `pdcp_entity_lte::discard_callback::operator()` (lines 559–577): erase
the stored SDU (if still present) and its timer, both keyed by the
callback's `discard_sn` (the `used_sn` captured at arming time). -/
def discard_callback (e : Entity) (discard_sn : Nat) : Entity :=
  let e := if mapContains e.undelivered_sdus_queue discard_sn then
             { e with undelivered_sdus_queue :=
                 mapErase discard_sn e.undelivered_sdus_queue }
           else e
  { e with discard_timers_map := keyErase discard_sn e.discard_timers_map }

/-- `pdcp_entity_lte::notify_delivery` (lines 582–598): per notified SN,
erase the queue entry and its timer; an unknown SN aborts the whole batch
(the source `return`s). -/
def notify_delivery (e : Entity) : List Nat → Entity
  | [] => e
  | sn :: rest =>
    if mapContains e.undelivered_sdus_queue sn then
      notify_delivery
        { e with undelivered_sdus_queue := mapErase sn e.undelivered_sdus_queue,
                 discard_timers_map := keyErase sn e.discard_timers_map }
        rest
    else e

/-- `pdcp_entity_lte::check_valid_config` (lines 603–622), exactly the
source's rejection chain. -/
def check_valid_config (cfg : PdcpCfg) : Bool :=
  if cfg.sn_len ≠ 5 ∧ cfg.sn_len ≠ 7 ∧ cfg.sn_len ≠ 12 then false
  else if cfg.sn_len = 5 ∧ ¬ cfg.is_srb then false
  else if cfg.sn_len = 7 ∧ (cfg.is_srb ∨ ¬ cfg.rb_is_um) then false
  else if cfg.sn_len = 12 ∧ cfg.is_srb then false
  else true

/-- `pdcp_entity_lte::reestablish` (lines 69–95).  Returns the entity and
the PDUs handed to `rlc->write_sdu`, in order (status report first in the
DRB/AM branch).  `queue_full` is the fixed answer `rlc->sdu_queue_is_full`
gives during the replay. -/
def reestablish (c : Crypto) (e : Entity) (queue_full : Bool) : Entity × List Buf :=
  if e.cfg.is_srb ∨ e.cfg.rb_is_um then
    ({ e with st := { e.st with next_pdcp_tx_sn := 0, tx_hfn := 0,
                                rx_hfn := 0, next_pdcp_rx_sn := 0 } }, [])
  else
    let report := send_status_report e
    let sdus := e.undelivered_sdus_queue
    let e := { e with undelivered_sdus_queue := [] }
    let (e, outs) := sdus.foldl
      (fun (acc : Entity × List Buf) p =>
        let (e', out) := write_sdu c acc.1 p.2 (some p.1) queue_full
        (e', acc.2 ++ out.toList))
      (e, [])
    (e, report.toList ++ outs)

/-- `runWrites` folds a list of SDUs through `write_sdu` with no
upper-layer SN and the RLC queue never full. -/
def runWrites (c : Crypto) (e : Entity) (sdus : List Buf) : Entity :=
  sdus.foldl (fun a s => (write_sdu c a s none false).1) e

/-! ### Helper lemmas about the ordered-map operations -/

theorem mem_mapInsert_self (k : Nat) (v : Buf) (q : List (Nat × Buf)) :
    k ∈ mapKeys (mapInsert k v q) := by
  induction q with
  | nil => simp [mapInsert, mapKeys]
  | cons p t ih =>
    simp only [mapInsert]
    split
    · simp [mapKeys]
    · split
      · next _ h2 => simp [mapKeys, h2]
      · simp only [mapKeys, List.map_cons, List.mem_cons]
        exact Or.inr ih

theorem mem_mapInsert_of_mem (a k : Nat) (v : Buf) (q : List (Nat × Buf))
    (h : a ∈ mapKeys q) : a ∈ mapKeys (mapInsert k v q) := by
  induction q with
  | nil => simp [mapKeys] at h
  | cons p t ih =>
    simp only [mapInsert]
    split
    · simp only [mapKeys, List.map_cons, List.mem_cons] at h ⊢
      tauto
    · split
      · exact h
      · simp only [mapKeys, List.map_cons, List.mem_cons] at h ⊢
        rcases h with h | h
        · exact Or.inl h
        · exact Or.inr (ih h)

theorem mapContains_iff (q : List (Nat × Buf)) (k : Nat) :
    mapContains q k = true ↔ k ∈ mapKeys q := by
  induction q with
  | nil => simp [mapContains, mapKeys]
  | cons p t ih =>
    simp only [mapContains, mapKeys, List.any_cons, List.map_cons, List.mem_cons,
      Bool.or_eq_true, beq_iff_eq] at ih ⊢
    rw [ih]
    constructor
    · rintro (h | h)
      · exact Or.inl h.symm
      · exact Or.inr h
    · rintro (h | h)
      · exact Or.inl h.symm
      · exact Or.inr h

theorem not_mem_mapErase (k : Nat) (q : List (Nat × Buf)) :
    k ∉ mapKeys (mapErase k q) := by
  simp [mapErase, mapKeys, List.mem_map, List.mem_filter]

theorem not_mem_keyErase (k : Nat) (t : List Nat) : k ∉ keyErase k t := by
  simp [keyErase, List.mem_filter]

theorem mem_keyInsert_iff (a k : Nat) (t : List Nat) :
    a ∈ keyInsert k t ↔ a = k ∨ a ∈ t := by
  induction t with
  | nil => simp [keyInsert]
  | cons k' rest ih =>
    simp only [keyInsert]
    split
    · simp only [List.mem_cons]
    · split
      · next _ h2 =>
        subst h2
        simp only [List.mem_cons]
        tauto
      · simp only [List.mem_cons, ih]
        tauto

theorem store_sdu_fst_of_not_contains (q : List (Nat × Buf)) (k : Nat) (s : Buf)
    (h : mapContains q k = false) : (store_sdu q k s).1 = mapInsert k s q := by
  simp only [store_sdu]
  rw [h, if_neg Bool.false_ne_true]

/-! ### Helper lemmas characterizing `write_sdu` -/

theorem write_sdu_cfg (c : Crypto) (e : Entity) (s : Buf) (o : Option Nat)
    (q : Bool) : ((write_sdu c e s o q).1).cfg = e.cfg := by
  cases q <;> rfl

theorem write_sdu_st_none (c : Crypto) (e : Entity) (s : Buf) :
    ((write_sdu c e s none false).1).st =
      (if e.st.next_pdcp_tx_sn + 1 > maximum_pdcp_sn e.cfg then
        { e.st with next_pdcp_tx_sn := 0, tx_hfn := u32 (e.st.tx_hfn + 1) }
      else { e.st with next_pdcp_tx_sn := e.st.next_pdcp_tx_sn + 1 }) := by
  rfl

theorem write_sdu_maps (c : Crypto) (e : Entity) (s : Buf) (o : Option Nat) :
    ((write_sdu c e s o false).1).undelivered_sdus_queue =
      (if ¬ e.cfg.is_srb ∧ ¬ e.cfg.rb_is_um then
        (store_sdu e.undelivered_sdus_queue (o.getD e.st.next_pdcp_tx_sn) s).1
      else e.undelivered_sdus_queue) ∧
    ((write_sdu c e s o false).1).discard_timers_map =
      (if e.cfg.discard_timer_finite then
        keyInsert (COUNT e.cfg.sn_len e.st.tx_hfn (o.getD e.st.next_pdcp_tx_sn))
          e.discard_timers_map
      else e.discard_timers_map) := by
  exact ⟨rfl, rfl⟩

theorem write_sdu_mem_mono (c : Crypto) (e : Entity) (s : Buf) (o : Option Nat)
    (k : Nat) (h : k ∈ mapKeys e.undelivered_sdus_queue) :
    k ∈ mapKeys ((write_sdu c e s o false).1).undelivered_sdus_queue := by
  rw [(write_sdu_maps c e s o).1]
  split
  · simp only [store_sdu]
    split
    · exact h
    · exact mem_mapInsert_of_mem _ _ _ _ h
  · exact h

theorem runWrites_mem_mono (c : Crypto) (sdus : List Buf) :
    ∀ e : Entity, ∀ k : Nat, k ∈ mapKeys e.undelivered_sdus_queue →
      k ∈ mapKeys (runWrites c e sdus).undelivered_sdus_queue := by
  induction sdus with
  | nil => intro e k h; simpa [runWrites] using h
  | cons s rest ih =>
    intro e k h
    have : runWrites c e (s :: rest) = runWrites c ((write_sdu c e s none false).1) rest := by
      simp [runWrites]
    rw [this]
    exact ih _ _ (write_sdu_mem_mono c e s none k h)

/-! ### Counter arithmetic -/

theorem mod_shift (x n m : Nat) : (x % m + n) % m = (x + n) % m := by
  conv_rhs => rw [← Nat.div_add_mod x m]
  rw [Nat.add_assoc, Nat.mul_add_mod]

theorem div_shift (x n m : Nat) (hm : 0 < m) :
    x / m + (x % m + n) / m = (x + n) / m := by
  conv_rhs => rw [← Nat.div_add_mod x m]
  rw [Nat.add_assoc, Nat.mul_add_div hm]

theorem runWrites_counters (c : Crypto) (sdus : List Buf) :
    ∀ e : Entity, e.st.next_pdcp_tx_sn ≤ maximum_pdcp_sn e.cfg →
      e.st.tx_hfn < 4294967296 →
      (runWrites c e sdus).cfg = e.cfg ∧
      (runWrites c e sdus).st.next_pdcp_tx_sn =
        (e.st.next_pdcp_tx_sn + sdus.length) % (maximum_pdcp_sn e.cfg + 1) ∧
      (runWrites c e sdus).st.tx_hfn =
        (e.st.tx_hfn +
          (e.st.next_pdcp_tx_sn + sdus.length) / (maximum_pdcp_sn e.cfg + 1)) %
          4294967296 := by
  induction sdus with
  | nil =>
    intro e h hw
    refine ⟨rfl, ?_, ?_⟩
    · simp [runWrites, Nat.mod_eq_of_lt (Nat.lt_succ_of_le h)]
    · simp [runWrites, Nat.div_eq_of_lt (Nat.lt_succ_of_le h),
        Nat.mod_eq_of_lt hw]
  | cons s rest ih =>
    intro e h hw
    have hrun : runWrites c e (s :: rest) = runWrites c ((write_sdu c e s none false).1) rest := by
      simp [runWrites]
    set e' := (write_sdu c e s none false).1 with he'
    have hcfg : e'.cfg = e.cfg := write_sdu_cfg c e s none false
    have hst := write_sdu_st_none c e s
    set a := e.st.next_pdcp_tx_sn with ha
    set mx := maximum_pdcp_sn e.cfg with hmx
    have hm : 0 < mx + 1 := Nat.succ_pos mx
    have hWpos : 0 < 4294967296 := by norm_num
    -- the stepped counters
    have hsn : e'.st.next_pdcp_tx_sn = (a + 1) % (mx + 1) := by
      rw [hst]
      split
      · have : a = mx := by omega
        simp [this]
      · have : a + 1 < mx + 1 := by omega
        simp [Nat.mod_eq_of_lt this]
    have hhfn : e'.st.tx_hfn = (e.st.tx_hfn + (a + 1) / (mx + 1)) % 4294967296 := by
      rw [hst]
      split
      · have : a = mx := by omega
        simp [this, Nat.div_self hm, u32]
      · have h2 : a + 1 < mx + 1 := by omega
        simp [Nat.div_eq_of_lt h2, Nat.mod_eq_of_lt hw]
    have hle : e'.st.next_pdcp_tx_sn ≤ maximum_pdcp_sn e'.cfg := by
      rw [hsn, hcfg, ← hmx]
      exact Nat.lt_succ_iff.mp (Nat.mod_lt _ hm)
    have hwle : e'.st.tx_hfn < 4294967296 := by
      rw [hhfn]
      exact Nat.mod_lt _ hWpos
    obtain ⟨icfg, isn, ihfn⟩ := ih e' hle hwle
    refine ⟨by rw [hrun, icfg, hcfg], ?_, ?_⟩
    · rw [hrun, isn, hsn, hcfg, ← hmx, mod_shift]
      simp [List.length_cons]
      ring_nf
    · rw [hrun, ihfn, hsn, hhfn, hcfg, ← hmx, mod_shift]
      rw [Nat.add_assoc, div_shift (a + 1) rest.length (mx + 1) hm]
      simp [List.length_cons]
      ring_nf

/-! ### Concrete entities used by the claims -/

/-- A DRB mapped on RLC AM with 12-bit SNs and a finite discard timer. -/
def cfgAM12 : PdcpCfg := ⟨false, false, 12, 2, true, true⟩

/-- The S3 scenario entity: `next_tx_sn = 10`,
`undelivered = {COUNT(0,3), COUNT(0,5), COUNT(0,8)}`. -/
def eS3 : Entity :=
  ⟨cfgAM12, ⟨10, 0, 0, 0, 4095⟩, [(3, [0xA]), (5, [0xB]), (8, [0xC])], [3, 5, 8],
   Direction.dNONE, Direction.dNONE, none, none, true⟩

/-- The round-trip entity for C1: the S3 queue plus matching discard timers. -/
def eC1 : Entity :=
  ⟨cfgAM12, ⟨10, 0, 0, 0, 4095⟩, [(3, [0xA]), (5, [0xB]), (8, [0xC])], [3, 5, 8],
   Direction.dNONE, Direction.dNONE, none, none, true⟩

/-- DRB/AM entity with `status_report_required = false` and one stored SDU. -/
def eReest : Entity :=
  ⟨⟨false, false, 12, 2, false, false⟩, ⟨10, 0, 0, 0, 4095⟩, [(3, [7])], [],
   Direction.dNONE, Direction.dNONE, none, none, true⟩

/-- A DRB configured with 18-bit SNs over RLC AM. -/
def cfg18AM : PdcpCfg := ⟨false, false, 18, 3, true, true⟩

/-! ## Claim C5 — accepted sn_len/bearer combinations -/

/-- C5 counterexample: the claim says a DRB with `sn_len = 18` is accepted,
but `check_valid_config` returns `false` for it (the first guard admits
only 5, 7 and 12). -/
theorem claim_C5_counterexample : check_valid_config cfg18AM = false := by decide

/-- C5 (amended): configuration validation accepts exactly SRB with
`sn_len = 5`, DRB over RLC-UM with `sn_len` 7 or 12, and DRB over RLC-AM
with `sn_len = 12`; every `sn_len = 18` configuration is rejected. -/
theorem claim_C5_amended_valid_configs (cfg : PdcpCfg) :
    check_valid_config cfg = true ↔
      ((cfg.is_srb = true ∧ cfg.sn_len = 5) ∨
       (cfg.is_srb = false ∧ cfg.rb_is_um = true ∧ (cfg.sn_len = 7 ∨ cfg.sn_len = 12)) ∨
       (cfg.is_srb = false ∧ cfg.rb_is_um = false ∧ cfg.sn_len = 12)) := by
  obtain ⟨srb, um, n, hb, dt, sr⟩ := cfg
  by_cases h5 : n = 5 <;> by_cases h7 : n = 7 <;> by_cases h12 : n = 12 <;>
    cases srb <;> cases um <;> simp_all [check_valid_config]

/-! ## Claim C6 — FMS decoding masks -/

/-- C6: for `sn_len = 12` the decoder masks the first two header bytes to the
low 12 bits as the claim says, but for `sn_len = 18` the source masks with
`0x3FFF` (14 bits), not the low 18 bits: the header bytes `[0x01, 0x00, 0x00]`,
whose low 18 bits are 65536, decode to FMS = 0. -/
theorem claim_C6_fms_mask_is_14_bits :
    decode_fms 12 [0x0F, 0xFF] = some (4095, 2) ∧
    decode_fms 18 [0x01, 0x00, 0x00] = some (0, 3) := by decide

/-! ## Claim C7 — the S3 status report -/

/-- C7 counterexample: on the S3 entity `send_status_report` emits bitmap
byte `10100100` (0xA4: bits at offsets 0, 2, 5 from FMS = 3, most
significant first), not `10010100` (0x94) as the claim's byte value says. -/
theorem claim_C7_counterexample :
    send_status_report eS3 = some [0x00, 0x03, 0xA4] ∧ (0xA4 : Nat) ≠ 0x94 := by
  decide

/-- C7 (amended): the S3 status report is exactly the 3 bytes
`0x00, 0x03, 10100100` — byte 0 = 0x00, byte 1 = 0x03 (FMS = 3), and one
bitmap byte with bits set at offsets 0, 2 and 5 from the FMS. -/
theorem claim_C7_amended_bitmap :
    send_status_report eS3 = some [0x00, 0x03, 0xA4] := by decide

/-! ## Claim C1 — status-report encode/decode round trip -/

/-- C1: encode-then-decode does NOT remove the acknowledged SNs.  On the
entity with stored SNs {3, 5, 8} the encoder emits `[0x00, 0x03, 0xA4]`,
and feeding that PDU back to `handle_status_report_pdu` of an entity holding
those same keys leaves queue and timers completely unchanged: the decoder's
`bset[8 - j]` bit indexing reads each bitmap bit one position off its
encoder, so it acknowledges {4, 6, 9} instead of {3, 5, 8}. -/
theorem claim_C1_roundtrip_fails :
    send_status_report eC1 = some [0x00, 0x03, 0xA4] ∧
    handle_status_report_pdu eC1 [0x00, 0x03, 0xA4] = eC1 ∧
    mapKeys eC1.undelivered_sdus_queue = [3, 5, 8] := by decide

/-! ## Claim C3 — reestablish on DRB/AM -/

/-- C3: `reestablish` emits the status report even though
`status_report_required = false` — the source calls `send_status_report()`
unconditionally in the RLC-AM branch, against its own comment "Send status
report if required".  The first PDU handed to RLC is the control PDU
`[0x00, 0x03, 0x80]`, followed by the replayed data PDU for stored SN 3. -/
theorem claim_C3_report_sent_unconditionally :
    eReest.cfg.status_report_required = false ∧
    (reestablish idCrypto eReest false).2 = [[0x00, 0x03, 0x80], [0x80, 0x03, 7]] ∧
    is_control_pdu [0x00, 0x03, 0x80] = true := by decide

/-! ## Claim C4 — SRB integrity failure leaves state untouched -/

/-- A crypto provider whose integrity verification always fails. -/
def noVerifyCrypto : Crypto :=
  ⟨fun b _ => b, fun b _ => b, fun _ _ _ => false, fun _ _ => [0, 0, 0, 0]⟩

/-- An SRB entity with RX integrity and ciphering enabled. -/
def eSrbRx : Entity :=
  ⟨⟨true, false, 5, 1, false, false⟩, ⟨0, 0, 0, 0, 31⟩, [], [],
   Direction.dTXRX, Direction.dTXRX, none, none, true⟩

/-- C4: on an SRB entity with RX integrity enabled, when integrity
verification fails `handle_srb_pdu` drops the PDU: the entity (including
`next_rx_sn` and `rx_hfn`) is returned unchanged and nothing is delivered
upward, because the state update follows the verification in the source. -/
theorem claim_C4_integrity_failure_drops (c : Crypto) (e : Entity) (pdu : Buf)
    (hint : e.integrity_direction = Direction.dRX ∨
            e.integrity_direction = Direction.dTXRX)
    (hv : ∀ b cnt m, c.verify b cnt m = false) :
    (handle_srb_pdu c e pdu).ent = e ∧ (handle_srb_pdu c e pdu).delivered = none := by
  simp only [handle_srb_pdu, extract_mac]
  split_ifs <;> first
    | exact ⟨rfl, rfl⟩
    | simp_all [hv]

/-- C4 witness: a concrete SRB entity and PDU under an always-failing
verifier. -/
theorem claim_C4_witness :
    (eSrbRx.integrity_direction = Direction.dRX ∨
     eSrbRx.integrity_direction = Direction.dTXRX) ∧
    (∀ b cnt m, noVerifyCrypto.verify b cnt m = false) ∧
    ((handle_srb_pdu noVerifyCrypto eSrbRx [2, 9, 0, 0, 0, 0]).ent = eSrbRx ∧
     (handle_srb_pdu noVerifyCrypto eSrbRx [2, 9, 0, 0, 0, 0]).delivered = none) :=
  ⟨Or.inr rfl, fun _ _ _ => rfl,
   claim_C4_integrity_failure_drops noVerifyCrypto eSrbRx [2, 9, 0, 0, 0, 0]
     (Or.inr rfl) (fun _ _ _ => rfl)⟩

/-! ## Claim C9 — DRB/AM decrypts unconditionally -/

/-- C9: every DRB/AM data PDU that reaches a deliver branch of
`handle_am_drb_pdu` is run through `cipher_decrypt` regardless of
`encryption_direction`, whereas the DRB/UM and SRB receive handlers invoke
the decipher exactly when RX encryption is enabled. -/
theorem claim_C9_am_unconditional_decrypt (c : Crypto) (e : Entity) (pdu : Buf) :
    ((handle_am_drb_pdu c e pdu).delivered.isSome = true →
      (handle_am_drb_pdu c e pdu).decrypted = true) ∧
    ((handle_um_drb_pdu c e pdu).decrypted = true ↔
      (e.encryption_direction = Direction.dRX ∨
       e.encryption_direction = Direction.dTXRX)) ∧
    ((handle_srb_pdu c e pdu).decrypted = true ↔
      (e.encryption_direction = Direction.dRX ∨
       e.encryption_direction = Direction.dTXRX)) := by
  refine ⟨?_, ?_, ?_⟩
  · simp only [handle_am_drb_pdu]
    split_ifs <;> intro h <;> first
      | rfl
      | simp at h
  · simp only [handle_um_drb_pdu]
    exact decide_eq_true_iff
  · simp only [handle_srb_pdu, extract_mac]
    split_ifs <;> exact decide_eq_true_iff

/-- RX-side DRB/AM entity used as the C9 witness (fresh state; the PDU with
SN 5 falls in the `sn ≥ next_rx_sn` deliver branch). -/
def eAmRx : Entity :=
  ⟨cfgAM12, ⟨0, 0, 0, 0, 4095⟩, [], [],
   Direction.dNONE, Direction.dNONE, none, none, true⟩

/-- C9 witness: with encryption disabled, the AM handler still decrypts the
delivered PDU, and the UM/SRB handlers do not. -/
theorem claim_C9_witness :
    (handle_am_drb_pdu idCrypto eAmRx [0x80, 0x05, 0x99]).delivered.isSome = true ∧
    (handle_am_drb_pdu idCrypto eAmRx [0x80, 0x05, 0x99]).decrypted = true ∧
    ((handle_um_drb_pdu idCrypto eAmRx [0x80, 0x05, 0x99]).decrypted = true ↔
      (eAmRx.encryption_direction = Direction.dRX ∨
       eAmRx.encryption_direction = Direction.dTXRX)) ∧
    ((handle_srb_pdu idCrypto eAmRx [0x80, 0x05, 0x99]).decrypted = true ↔
      (eAmRx.encryption_direction = Direction.dRX ∨
       eAmRx.encryption_direction = Direction.dTXRX)) :=
  ⟨by decide,
   (claim_C9_am_unconditional_decrypt idCrypto eAmRx [0x80, 0x05, 0x99]).1 (by decide),
   (claim_C9_am_unconditional_decrypt idCrypto eAmRx [0x80, 0x05, 0x99]).2.1,
   (claim_C9_am_unconditional_decrypt idCrypto eAmRx [0x80, 0x05, 0x99]).2.2⟩

/-! ## Claim C10 — control dispatch precedes the length check -/

/-- C10: for a DRB, `write_pdu` dispatches a PDU whose data/control bit is 0
to the control-PDU handler before the minimum-length sanity check, so a
control PDU no longer than the header is still processed by
`handle_control_pdu` / `handle_status_report_pdu`; only data (non-control)
PDUs of such length are rejected with no state change. -/
theorem claim_C10_control_before_length (c : Crypto) (e : Entity) (pdu : Buf)
    (hd : e.cfg.is_srb = false) (hlen : pdu.length ≤ e.cfg.hdr_len_bytes) :
    (is_control_pdu pdu = true →
      write_pdu c e pdu = ⟨handle_control_pdu e pdu, none, false⟩ ∧
      (get_control_pdu_type pdu = 0 →
        (write_pdu c e pdu).ent = handle_status_report_pdu e pdu)) ∧
    (is_control_pdu pdu = false → write_pdu c e pdu = ⟨e, none, false⟩) := by
  constructor
  · intro hctrl
    have hw : write_pdu c e pdu = ⟨handle_control_pdu e pdu, none, false⟩ := by
      simp only [write_pdu]
      rw [if_pos ⟨by simp [hd], hctrl⟩]
    refine ⟨hw, fun ht => ?_⟩
    rw [hw]
    simp only [handle_control_pdu]
    rw [if_pos ht]
  · intro hctrl
    simp only [write_pdu]
    rw [if_neg (by simp [hctrl]), if_pos hlen]

/-- DRB/AM entity holding stored SN 5, used as the C10 witness. -/
def eC10 : Entity :=
  ⟨cfgAM12, ⟨0, 0, 0, 0, 4095⟩, [(5, [1])], [5],
   Direction.dNONE, Direction.dNONE, none, none, true⟩

/-- C10 witness: the 2-byte control PDU `[0x0F, 0xFF]` (length equal to the
12-bit header size) is still consumed as a status report — it decodes
FMS = 4095 and visibly erases stored SN 5 — instead of being rejected by
the length check. -/
theorem claim_C10_witness :
    eC10.cfg.is_srb = false ∧
    ([15, 255] : Buf).length ≤ eC10.cfg.hdr_len_bytes ∧
    is_control_pdu [15, 255] = true ∧
    get_control_pdu_type [15, 255] = 0 ∧
    (write_pdu idCrypto eC10 [15, 255]).ent = handle_status_report_pdu eC10 [15, 255] ∧
    mapKeys ((write_pdu idCrypto eC10 [15, 255]).ent).undelivered_sdus_queue = [] :=
  ⟨rfl, by decide, rfl, rfl,
   ((claim_C10_control_before_length idCrypto eC10 [15, 255] rfl (by decide)).1 rfl).2 rfl,
   by decide⟩

/-! ## Claim C8 — TX counter evolution -/

/-- SRB entity with 5-bit SNs at `next_tx_sn = maximum = 31` and the 32-bit
HFN counter at its maximum `2^32 - 1`. -/
def eHfnWrap : Entity :=
  ⟨⟨true, false, 5, 1, false, false⟩, ⟨31, 4294967295, 0, 0, 31⟩, [], [],
   Direction.dNONE, Direction.dNONE, none, none, true⟩

/-- C8 counterexample: from `tx_hfn = 2^32 - 1` and `next_tx_sn = 31` (the
maximum), a single `write_sdu` wraps the `uint32_t` HFN to 0 (`st.tx_hfn++`
overflows), while the claim's formula
`initial_tx_hfn + (initial_next_tx_sn + N) / (max+1)` predicts `2^32`. -/
theorem claim_C8_counterexample :
    (runWrites idCrypto eHfnWrap [[1]]).st.tx_hfn = 0 ∧
    eHfnWrap.st.tx_hfn +
      (eHfnWrap.st.next_pdcp_tx_sn + ([[1]] : List Buf).length) /
        (maximum_pdcp_sn eHfnWrap.cfg + 1) = 4294967296 ∧
    (0 : Nat) ≠ 4294967296 := by decide

/-- C8 (amended): with the RLC queue never full, after any sequence of
`write_sdu` calls without `override_sn` the counters satisfy
`next_tx_sn = (init + N) mod (max+1)` and
`tx_hfn = (init_hfn + (init + N) / (max+1)) mod 2^32` — the HFN is a 32-bit
counter that wraps; in particular, when `next_tx_sn` sits at the maximum,
one further call wraps it to 0 and increments `tx_hfn` exactly once
modulo `2^32`. -/
theorem claim_C8_tx_counter_evolution (c : Crypto) (e : Entity)
    (sdus : List Buf) (s : Buf)
    (h : e.st.next_pdcp_tx_sn ≤ maximum_pdcp_sn e.cfg)
    (hw : e.st.tx_hfn < 4294967296) :
    (runWrites c e sdus).st.next_pdcp_tx_sn =
      (e.st.next_pdcp_tx_sn + sdus.length) % (maximum_pdcp_sn e.cfg + 1) ∧
    (runWrites c e sdus).st.tx_hfn =
      (e.st.tx_hfn +
        (e.st.next_pdcp_tx_sn + sdus.length) / (maximum_pdcp_sn e.cfg + 1)) %
        4294967296 ∧
    (e.st.next_pdcp_tx_sn = maximum_pdcp_sn e.cfg →
      ((write_sdu c e s none false).1).st.next_pdcp_tx_sn = 0 ∧
      ((write_sdu c e s none false).1).st.tx_hfn = u32 (e.st.tx_hfn + 1)) := by
  obtain ⟨_, hsn, hhfn⟩ := runWrites_counters c sdus e h hw
  refine ⟨hsn, hhfn, fun hmax => ?_⟩
  rw [write_sdu_st_none, if_pos (by omega)]
  exact ⟨rfl, rfl⟩

/-- SRB entity with 5-bit SNs sitting at `next_tx_sn = maximum = 31`,
`tx_hfn = 7`, used as the C8 witness. -/
def eWrap : Entity :=
  ⟨⟨true, false, 5, 1, false, false⟩, ⟨31, 7, 0, 0, 31⟩, [], [],
   Direction.dNONE, Direction.dNONE, none, none, true⟩

/-- C8 witness: three writes from SN 31 of 32 give
`next_tx_sn = (31+3) mod 32 = 2` and `tx_hfn = (7 + 1) mod 2^32 = 8`; a
single write wraps 31 to 0 with one (mod-2^32) HFN increment. -/
theorem claim_C8_witness :
    eWrap.st.next_pdcp_tx_sn ≤ maximum_pdcp_sn eWrap.cfg ∧
    eWrap.st.tx_hfn < 4294967296 ∧
    ((runWrites idCrypto eWrap [[1], [2], [3]]).st.next_pdcp_tx_sn =
      (eWrap.st.next_pdcp_tx_sn + [[1], [2], [3]].length) %
        (maximum_pdcp_sn eWrap.cfg + 1) ∧
     (runWrites idCrypto eWrap [[1], [2], [3]]).st.tx_hfn =
      (eWrap.st.tx_hfn +
        (eWrap.st.next_pdcp_tx_sn + [[1], [2], [3]].length) /
          (maximum_pdcp_sn eWrap.cfg + 1)) % 4294967296 ∧
     (eWrap.st.next_pdcp_tx_sn = maximum_pdcp_sn eWrap.cfg →
       ((write_sdu idCrypto eWrap [9] none false).1).st.next_pdcp_tx_sn = 0 ∧
       ((write_sdu idCrypto eWrap [9] none false).1).st.tx_hfn =
         u32 (eWrap.st.tx_hfn + 1))) :=
  ⟨by decide, by decide,
   claim_C8_tx_counter_evolution idCrypto eWrap [[1], [2], [3]] [9]
     (by decide) (by decide)⟩

/-! ## Claim C2 — the undelivered queue is keyed by bare SN, not COUNT

`write_sdu` computes `tx_count = COUNT(tx_hfn, used_sn)` but calls
`store_sdu(used_sn, sdu)` while arming the discard timer under `tx_count`.
Both agree while `tx_hfn = 0`; the trace below drives `tx_hfn` to 1 by
wrapping the 12-bit SN space (4096 plain `write_sdu` calls), lets RLC
confirm delivery of SN 0, and then performs one more `write_sdu`: the new
queue entry is stored under the bare SN 0 although its COUNT is 4096, and
its discard timer sits under key 4096, so key 0 has no matching timer even
though the discard timer is finite. -/

/-- Fresh DRB/AM entity (sn_len = 12, finite discard timer) at the start of
the C2 trace. -/
def e0C2 : Entity :=
  ⟨cfgAM12, ⟨0, 0, 0, 0, 4095⟩, [], [],
   Direction.dNONE, Direction.dNONE, none, none, true⟩

/-- 4096 plain `write_sdu` calls: `next_tx_sn` wraps back to 0, `tx_hfn = 1`. -/
def e1C2 : Entity := runWrites idCrypto e0C2 (List.replicate 4096 [1])

/-- RLC then confirms delivery of SN 0, erasing key 0 and its timer. -/
def e2C2 : Entity := notify_delivery e1C2 [0]

/-- C2: one further `write_sdu` call on the reachable state `e2C2`
(where `tx_hfn = 1` and `next_tx_sn = 0`) stores the new SDU under key 0 —
the bare SN, although its full COUNT is 4096 — and, although the discard
timer is finite, key 0 has no matching entry in the discard-timers map
(the timer was armed under the COUNT, 4096). -/
theorem claim_C2_keys_are_bare_sns :
    e0C2.cfg.discard_timer_finite = true ∧
    e2C2.st.tx_hfn = 1 ∧
    e2C2.st.next_pdcp_tx_sn = 0 ∧
    0 ∈ mapKeys
      ((write_sdu idCrypto e2C2 [1] none false).1).undelivered_sdus_queue ∧
    COUNT e0C2.cfg.sn_len e2C2.st.tx_hfn 0 = 4096 ∧
    0 ∉ ((write_sdu idCrypto e2C2 [1] none false).1).discard_timers_map := by
  have hrw := runWrites_counters idCrypto (List.replicate 4096 [1]) e0C2
    (by decide) (by decide)
  have he1 : e1C2 = runWrites idCrypto e0C2 (List.replicate 4096 [1]) := rfl
  rw [← he1] at hrw
  -- counters after the 4096 writes
  have harith1 : (e0C2.st.next_pdcp_tx_sn + (@List.replicate Buf 4096 [1]).length) %
      (maximum_pdcp_sn e0C2.cfg + 1) = 0 := by
    rw [List.length_replicate]
    decide
  have harith2 : (e0C2.st.tx_hfn +
      (e0C2.st.next_pdcp_tx_sn + (@List.replicate Buf 4096 [1]).length) /
        (maximum_pdcp_sn e0C2.cfg + 1)) % 4294967296 = 1 := by
    rw [List.length_replicate]
    decide
  have hn1 : e1C2.st.next_pdcp_tx_sn = 0 := hrw.2.1.trans harith1
  have hh1 : e1C2.st.tx_hfn = 1 := hrw.2.2.trans harith2
  -- key 0 is in the queue after the 4096 writes (inserted by the first one)
  have hstep0 : 0 ∈ mapKeys
      ((write_sdu idCrypto e0C2 [1] none false).1).undelivered_sdus_queue := by decide
  have h1mem : 0 ∈ mapKeys e1C2.undelivered_sdus_queue := by
    rw [he1,
      show @List.replicate Buf 4096 [1] = [1] :: @List.replicate Buf 4095 [1] from rfl]
    have hcons : runWrites idCrypto e0C2 ([1] :: @List.replicate Buf 4095 [1]) =
        runWrites idCrypto ((write_sdu idCrypto e0C2 [1] none false).1)
          (@List.replicate Buf 4095 [1]) := by
      simp only [runWrites, List.foldl_cons]
    rw [hcons]
    exact runWrites_mem_mono idCrypto _ _ 0 hstep0
  -- the delivery notification erases key 0 from both maps
  have hc1 : mapContains e1C2.undelivered_sdus_queue 0 = true :=
    (mapContains_iff _ _).mpr h1mem
  have he2 : e2C2 = { e1C2 with
      undelivered_sdus_queue := mapErase 0 e1C2.undelivered_sdus_queue,
      discard_timers_map := keyErase 0 e1C2.discard_timers_map } := by
    simp [e2C2, notify_delivery, hc1]
  have h2st : e2C2.st = e1C2.st := by rw [he2]
  have h2und : e2C2.undelivered_sdus_queue = mapErase 0 e1C2.undelivered_sdus_queue := by
    rw [he2]
  have h2tm : e2C2.discard_timers_map = keyErase 0 e1C2.discard_timers_map := by
    rw [he2]
  have h2cfg0 : e2C2.cfg = e1C2.cfg := by rw [he2]
  have h2cfg : e2C2.cfg = cfgAM12 :=
    h2cfg0.trans (hrw.1.trans (show e0C2.cfg = cfgAM12 from rfl))
  have hfnVal : e2C2.st.tx_hfn = 1 := by rw [h2st]; exact hh1
  have nextVal : e2C2.st.next_pdcp_tx_sn = 0 := by rw [h2st]; exact hn1
  -- the final write stores under the bare SN 0 …
  have hnotc : mapContains e2C2.undelivered_sdus_queue 0 = false := by
    cases hb : mapContains e2C2.undelivered_sdus_queue 0
    · rfl
    · exfalso
      apply not_mem_mapErase 0 e1C2.undelivered_sdus_queue
      have hmem := (mapContains_iff _ _).mp hb
      rwa [h2und] at hmem
  have h3und : ((write_sdu idCrypto e2C2 [1] none false).1).undelivered_sdus_queue =
      (store_sdu e2C2.undelivered_sdus_queue e2C2.st.next_pdcp_tx_sn [1]).1 := by
    have hm3 := (write_sdu_maps idCrypto e2C2 [1] none).1
    rw [h2cfg] at hm3
    rw [if_pos (show ¬ cfgAM12.is_srb ∧ ¬ cfgAM12.rb_is_um from
      ⟨by decide, by decide⟩)] at hm3
    rw [Option.getD_none] at hm3
    exact hm3
  have hfinal_mem : 0 ∈ mapKeys
      ((write_sdu idCrypto e2C2 [1] none false).1).undelivered_sdus_queue := by
    rw [h3und, nextVal, store_sdu_fst_of_not_contains _ _ _ hnotc]
    exact mem_mapInsert_self 0 [1] e2C2.undelivered_sdus_queue
  -- … while the timer is armed under COUNT 4096
  have h3tm : ((write_sdu idCrypto e2C2 [1] none false).1).discard_timers_map =
      keyInsert (COUNT 12 e2C2.st.tx_hfn e2C2.st.next_pdcp_tx_sn)
        e2C2.discard_timers_map := by
    have hm3 := (write_sdu_maps idCrypto e2C2 [1] none).2
    rw [h2cfg] at hm3
    rw [if_pos (show cfgAM12.discard_timer_finite = true from rfl)] at hm3
    rw [Option.getD_none] at hm3
    rw [show cfgAM12.sn_len = 12 from rfl] at hm3
    exact hm3
  have hfinal_tm : 0 ∉ ((write_sdu idCrypto e2C2 [1] none false).1).discard_timers_map := by
    rw [h3tm, hfnVal, nextVal]
    intro hcon
    rcases (mem_keyInsert_iff 0 (COUNT 12 1 0) _).mp hcon with h | h
    · have hC : COUNT 12 1 0 = 4096 := by decide
      omega
    · rw [h2tm] at h
      exact not_mem_keyErase 0 _ h
  refine ⟨rfl, hfnVal, nextVal, hfinal_mem, ?_, hfinal_tm⟩
  simp only [hfnVal]
  decide

end PdcpLte
